import Mathlib

/-!
Shallow embedding of the infrabot task-orchestration core
(`src/core/infrabot.py`, `src/agents/crew.py`, `src/core/memory.py`)
and proofs about the frozen specification claims.

The embedding keeps the source structure: Python string operations are
modelled on `List Char`; Python dicts used as records become Lean
structures (absent keys become `Option` fields); external collaborators
(the ansible executor, the LLM crew kickoff, the ChromaDB store) become
oracle fields of an `Env` structure, with fallible calls returning
`Except String`; observable effects are recorded in an event trace.
-/

namespace Infrabot

/-! ### Python string primitives -/

/-- Substring containment test on character lists. -/
def infixChars (needle : List Char) : List Char → Bool
  | [] => needle.isPrefixOf []
  | c :: rest => needle.isPrefixOf (c :: rest) || infixChars needle rest

/-- Python `needle in hay` (substring containment). -/
def pyIn (needle hay : String) : Bool :=
  infixChars needle.toList hay.toList

/-- Python `s.startswith(pre)`. -/
def pyStartsWith (pre s : String) : Bool :=
  pre.toList.isPrefixOf s.toList

/-- Python `s.lower()` (ASCII case folding, as used on ASCII keyword data;
equal to `String.toLower`, written as a character-list map so that it
reduces). -/
def pyLower (s : String) : String :=
  ⟨s.toList.map Char.toLower⟩

/-- Characters stripped by Python `str.strip()`. -/
def isPySpace (c : Char) : Bool :=
  c == ' ' || c == '\t' || c == '\n' || c == '\r' || c == Char.ofNat 11 || c == Char.ofNat 12

/-- Python `s.strip()`. -/
def pyStrip (s : String) : String :=
  ⟨((s.toList.dropWhile isPySpace).reverse.dropWhile isPySpace).reverse⟩

/-- Python `s.replace(pat, rep)` on character lists: replace all
non-overlapping occurrences left to right (patterns here are nonempty tags). -/
def replChars (pat rep : List Char) : List Char → List Char
  | [] => []
  | c :: rest =>
    if h : pat.isPrefixOf (c :: rest) ∧ pat ≠ [] then
      rep ++ replChars pat rep ((c :: rest).drop pat.length)
    else
      c :: replChars pat rep rest
termination_by l => l.length
decreasing_by
  · simp only [List.length_drop, List.length_cons]
    have hlen : 1 ≤ pat.length := by
      cases pat with
      | nil => exact absurd rfl h.2
      | cons a l => simp
    omega
  · simp

/-- Python `s.replace(pat, rep)`. -/
def pyReplace (s pat rep : String) : String :=
  ⟨replChars pat.toList rep.toList s.toList⟩

/-- Python `s.split('\n')`: split at every newline, keeping empty pieces. -/
def splitNl : List Char → List (List Char)
  | [] => [[]]
  | c :: rest =>
    if c == '\n' then [] :: splitNl rest
    else
      match splitNl rest with
      | [] => [[c]]
      | h :: t => (c :: h) :: t

/-- Python `raw.split('\n')` lifted to `String`. -/
def pySplitLines (s : String) : List String :=
  (splitNl s.toList).map fun cs => ⟨cs⟩

/-- `'\n'.join`-style join used to build multi-line inputs in statements. -/
def joinLines : List String → String
  | [] => ""
  | [x] => x
  | x :: xs => x ++ "\n" ++ joinLines xs

/-! ### Fast-Path Router (`InfraBot._get_os_commands`, `InfraBot._execute_simple_query`) -/

/-- `InfraBot._get_os_commands`: the platform-specific keyword → shell command
mapping, as an insertion-ordered association list (Python dicts preserve
insertion order). -/
def get_os_commands (system : String) : List (String × String) :=
  if system == "Darwin" then
    [ ("time", "date"),
      ("date", "date"),
      ("disk", "df -h"),
      ("disk space", "df -h"),
      ("disk usage", "df -h"),
      ("memory", "vm_stat | head -10"),
      ("memory usage", "vm_stat | head -10"),
      ("ram", "vm_stat | head -10"),
      ("uptime", "uptime"),
      ("load", "uptime"),
      ("status", "uptime && df -h && vm_stat | head -5"),
      ("system", "uptime && df -h && vm_stat | head -5"),
      ("processes", "ps aux | head -10"),
      ("cpu", "top -l1 -s0 | head -15"),
      ("cpu usage", "top -l1 -s0 | head -15"),
      ("user", "whoami"),
      ("user name", "whoami"),
      ("current user", "whoami"),
      ("users", "dscl . list /Users | grep -v ^_"),
      ("list users", "dscl . list /Users | grep -v ^_"),
      ("local users", "dscl . list /Users | grep -v ^_") ]
  else if system == "Linux" then
    [ ("time", "date"),
      ("date", "date"),
      ("disk", "df -h"),
      ("disk space", "df -h"),
      ("disk usage", "df -h"),
      ("memory", "free -h"),
      ("memory usage", "free -h"),
      ("ram", "free -h"),
      ("uptime", "uptime"),
      ("load", "uptime"),
      ("status", "uptime && free -h && df -h"),
      ("system", "uptime && free -h && df -h"),
      ("processes", "ps aux | head -10"),
      ("cpu", "top -bn1 | head -20"),
      ("cpu usage", "top -bn1 | head -20"),
      ("user", "whoami"),
      ("user name", "whoami"),
      ("current user", "whoami"),
      ("users", "cut -d: -f1 /etc/passwd | grep -v ^# | sort"),
      ("list users", "cut -d: -f1 /etc/passwd | grep -v ^# | sort"),
      ("local users", "cut -d: -f1 /etc/passwd | grep -v ^# | sort") ]
  else
    [ ("time", if system != "Windows" then "date" else "echo %date% %time%"),
      ("date", if system != "Windows" then "date" else "echo %date% %time%"),
      ("disk", if system != "Windows" then "df -h" else "dir C:"),
      ("disk space", if system != "Windows" then "df -h" else "dir C:"),
      ("disk usage", if system != "Windows" then "df -h" else "dir C:"),
      ("memory", "echo \"Memory info not available on this platform\""),
      ("memory usage", "echo \"Memory info not available on this platform\""),
      ("ram", "echo \"Memory info not available on this platform\""),
      ("uptime", if system != "Windows" then "uptime" else "systeminfo | findstr \"Boot Time\""),
      ("load", if system != "Windows" then "uptime" else "systeminfo | findstr \"Boot Time\""),
      ("status", "echo \"System status not fully supported on this platform\""),
      ("system", "echo \"System info not fully supported on this platform\""),
      ("processes", if system != "Windows" then "ps aux | head -10" else "tasklist /FI \"STATUS eq RUNNING\""),
      ("cpu", "echo \"CPU info not available on this platform\""),
      ("cpu usage", "echo \"CPU info not available on this platform\""),
      ("user", if system != "Windows" then "whoami" else "echo %username%"),
      ("user name", if system != "Windows" then "whoami" else "echo %username%"),
      ("current user", if system != "Windows" then "whoami" else "echo %username%"),
      ("users", "echo \"User listing not available on this platform\""),
      ("list users", "echo \"User listing not available on this platform\""),
      ("local users", "echo \"User listing not available on this platform\"") ]

/-- One step of the keyword-selection loop in `_execute_simple_query`:
`if keyword in task_lower and len(keyword) > best_match_length`. -/
def selStep (taskLower : String) (acc : Option String × Nat) (kv : String × String) :
    Option String × Nat :=
  if pyIn kv.1 taskLower && decide (acc.2 < kv.1.length) then (some kv.2, kv.1.length) else acc

/-- The keyword-matching loop of `_execute_simple_query`: starting from
`command = None, best_match_length = 0`, scan the mapping in order and keep
the command of any keyword that matches and is strictly longer than the
best so far. -/
def selectCommand (qm : List (String × String)) (taskLower : String) : Option String × Nat :=
  qm.foldl (selStep taskLower) (none, 0)

/-! ### Artifact Extractor (`InfraCrew._parse_crew_result`) -/

/-- The structured result dict built by `_parse_crew_result`.  Keys that the
source only sets conditionally (`review_status`, `actual_result`) are
`Option` fields; `approach` starts as `"unknown"` and `status` as
`"completed"` (the `except` branch of the parser is unreachable for the
pure line-scanning code, so `status` never becomes `"error"` and no
`error` key appears). -/
structure CrewResult where
  task : String
  raw_output : String
  playbook_content : Option String
  approach : String
  status : String
  review_status : Option String
  actual_result : Option String
deriving Repr, DecidableEq

/-- Mutable locals of the tag-scanning loop in `_parse_crew_result`. -/
structure TagState where
  review_status : Option String
  approach : Option String
  actual_result : Option String
  inFinalCode : Bool
  finalCodeLines : List String
deriving Repr, DecidableEq

def initTagState : TagState :=
  { review_status := none, approach := none, actual_result := none,
    inFinalCode := false, finalCodeLines := [] }

/-- One iteration of the first scanning loop of `_parse_crew_result`: the
line is stripped; tag lines set fields or open `FINAL_CODE` capture mode;
once the mode is open every subsequent non-blank non-tag line is appended
(the mode never closes). -/
def tagStep (st : TagState) (rawline : String) : TagState :=
  let line := pyStrip rawline
  if pyStartsWith "STATUS:" line then
    { st with review_status := some (pyStrip (pyReplace line "STATUS:" "")) }
  else if pyStartsWith "APPROACH:" line then
    { st with approach := some (pyLower (pyStrip (pyReplace line "APPROACH:" ""))) }
  else if pyStartsWith "RESULT:" line || pyStartsWith "OUTPUT:" line then
    { st with actual_result := some (pyStrip (pyReplace (pyReplace line "RESULT:" "") "OUTPUT:" "")) }
  else if pyStartsWith "FINAL_CODE:" line then
    { st with inFinalCode := true }
  else if st.inFinalCode && line != "" then
    { st with finalCodeLines := st.finalCodeLines ++ [line] }
  else
    st

/-- The first scanning loop of `_parse_crew_result` over all lines. -/
def tagScan (lines : List String) (st : TagState) : TagState :=
  lines.foldl tagStep st

/-- `any(indicator in raw_output.lower() for indicator in [...])`. -/
def yamlIndicator (raw : String) : Bool :=
  ["yaml", "playbook", "hosts:", "tasks:", "---"].any fun i => pyIn i (pyLower raw)

/-- The YAML-sniffing loop of `_parse_crew_result` (with its `break`): collect
lines from the first start marker, keep indented / list-item / blank lines,
and stop at the first unindented non-blank line after the block started. -/
def yamlScan : List String → Bool → List String → List String
  | [], _, acc => acc
  | line :: rest, yamlStart, acc =>
    let ls := pyStrip line
    if pyStartsWith "---" ls || (pyStartsWith "hosts:" ls || pyIn "hosts: localhost" line) then
      yamlScan rest true (acc ++ [line])
    else if yamlStart &&
        (pyStartsWith " " line || pyStartsWith "- name:" ls || pyStartsWith "tasks:" ls ||
         pyStartsWith "become:" ls || pyStartsWith "- " ls || ls == "") then
      yamlScan rest yamlStart (acc ++ [line])
    else if yamlStart && !pyStartsWith " " line && ls != "" then
      acc
    else
      yamlScan rest yamlStart acc

/-- Commands searched for by the command-sniff fallback. -/
def sniffCmds : List String :=
  ["apt install", "yum install", "dnf install", "systemctl", "service"]

/-- The minimal single-task playbook synthesized around a matched command line
(the f-string template in `_parse_crew_result`). -/
def mkShellPlaybook (cmd : String) : String :=
  "---\n- hosts: localhost\n  become: yes\n  tasks:\n    - name: Execute command\n      shell: " ++
    cmd ++ "\n"

/-- The command-sniff fallback loop: on the first line containing a known
command substring (case-insensitively), wrap its stripped form in the
template and stop. -/
def cmdSniff : List String → Option String
  | [] => none
  | line :: rest =>
    if sniffCmds.any (fun c => pyIn c (pyLower line)) then
      some (mkShellPlaybook (pyStrip line))
    else cmdSniff rest

/-- Python truthiness of `result.get('playbook_content')`:
falsy when the key is `None` or the empty string. -/
def pcFalsy : Option String → Bool
  | none => true
  | some s => s == ""

/-- `InfraCrew._parse_crew_result`: recover a structured result from the raw
crew output.  Priority order: tagged `FINAL_CODE` capture, then YAML-block
sniffing (guarded by the indicator test and the `> 2` line count, the joined
block being stripped), then the command-sniff fallback when the content so
far is falsy. -/
def parse_crew_result (raw_output task_description : String) : CrewResult :=
  let lines := pySplitLines raw_output
  let st := tagScan lines initTagState
  let pc1 : Option String :=
    if st.finalCodeLines != [] then some (joinLines st.finalCodeLines) else none
  let pc2 : Option String :=
    match pc1 with
    | some s => some s
    | none =>
      if yamlIndicator raw_output then
        let pls := yamlScan lines false []
        if 2 < pls.length then some (pyStrip (joinLines pls)) else none
      else none
  let pc3 : Option String :=
    if pcFalsy pc2 then
      match cmdSniff lines with
      | some pb => some pb
      | none => pc2
    else pc2
  { task := task_description,
    raw_output := raw_output,
    playbook_content := pc3,
    approach := st.approach.getD "unknown",
    status := "completed",
    review_status := st.review_status,
    actual_result := st.actual_result }

/-! ### Context Store (`BotMemory`)

ChromaDB itself is external; its query replies (parallel `documents` /
`metadatas` / `distances` arrays) are modelled as lists of hits, and its
`get` as a filter over an insertion-ordered record list whose order the
backend does not guarantee.  Relevance distances are modelled as `ℚ`. -/

/-- One hit of a ChromaDB `query` reply: a document together with its
metadata blob and its semantic distance. -/
structure QHit where
  doc : String
  md : String
  dist : ℚ
deriving Repr, DecidableEq

/-- One entry of the context list built by `BotMemory.get_context`. -/
structure CtxEntry where
  type : String
  content : String
  metadata : String
  relevance_score : ℚ
deriving Repr, DecidableEq

/-- The comparison used by `context.sort(key=lambda x: x.get('relevance_score', 1.0))`. -/
def ctxLe (a b : CtxEntry) : Prop :=
  a.relevance_score ≤ b.relevance_score

instance : DecidableRel ctxLe := fun a b => inferInstanceAs (Decidable (_ ≤ _))

instance : IsTotal CtxEntry ctxLe := ⟨fun a b => le_total a.relevance_score b.relevance_score⟩

instance : IsTrans CtxEntry ctxLe := ⟨fun _ _ _ h h' => le_trans h h'⟩

/-- `BotMemory.get_context`: combine the interaction and playbook query hits
(scores default to `1.0` when the backend returned no distances), sort the
combined list ascending by relevance score (Python's stable sort, modelled
by stable insertion sort), and truncate to `limit`. -/
def get_context (interHits playHits : List QHit) (interHasDist playHasDist : Bool)
    (limit : Nat) : List CtxEntry :=
  let c1 := interHits.map fun h =>
    ⟨"interaction", h.doc, h.md, if interHasDist then h.dist else 1⟩
  let c2 := playHits.map fun h =>
    ⟨"playbook", h.doc, h.md, if playHasDist then h.dist else 1⟩
  (List.insertionSort ctxLe (c1 ++ c2)).take limit

/-- A record of the `interactions` collection as stored by ChromaDB:
document text plus the metadata fields relevant here.  The list order of a
store is the backend's enumeration order, which the backend does not
guarantee to follow timestamps. -/
structure StoredRec where
  content : String
  rtype : String
  timestamp : Nat
deriving Repr, DecidableEq

/-- One entry of the history list built by `get_recent_history`. -/
structure HistEntry where
  content : String
  timestamp : Nat
deriving Repr, DecidableEq

/-- ChromaDB `collection.get(limit=limit, where={"type": rtype})`: the first
`limit` records matching the filter, in backend enumeration order. -/
def chromaGet (store : List StoredRec) (limit : Nat) (rtype : String) : List StoredRec :=
  (store.filter fun r => r.rtype == rtype).take limit

/-- The comparison of `history.sort(key=..., reverse=True)`: descending
timestamps. -/
def histGe (a b : HistEntry) : Prop :=
  b.timestamp ≤ a.timestamp

instance : DecidableRel histGe := fun a b => inferInstanceAs (Decidable (_ ≤ _))

instance : IsTotal HistEntry histGe := ⟨fun a b => le_total b.timestamp a.timestamp⟩

instance : IsTrans HistEntry histGe := ⟨fun _ _ _ h h' => le_trans h' h⟩

/-- `BotMemory.get_recent_history`: fetch up to `limit` `user_request`
records (the limit is applied by the backend *before* any ordering), then
sort that sample client-side by timestamp, most recent first. -/
def get_recent_history (store : List StoredRec) (limit : Nat) : List HistEntry :=
  let rs := chromaGet store limit "user_request"
  List.insertionSort histGe (rs.map fun r => ⟨r.content, r.timestamp⟩)

/-- The spec's reading of `recent(kind, limit)`: the `limit` newest entries
of the kind over the whole partition, sorted newest first. -/
def recent_per_spec (store : List StoredRec) (limit : Nat) : List HistEntry :=
  (List.insertionSort histGe
    ((store.filter fun r => r.rtype == "user_request").map fun r => ⟨r.content, r.timestamp⟩)).take
    limit

/-! #### `BotMemory.store_interaction` metadata handling (Python dict model) -/

/-- Python `d[k] = v` on an insertion-ordered association list with unique
keys: overwrite in place if present, else append. -/
def pyDictSet : List (String × String) → String → String → List (String × String)
  | [], k, v => [(k, v)]
  | p :: rest, k, v => if p.1 == k then (k, v) :: rest else p :: pyDictSet rest k v

/-- Python `base.update(upd)`. -/
def pyDictUpdate (base upd : List (String × String)) : List (String × String) :=
  upd.foldl (fun d p => pyDictSet d p.1 p.2) base

/-- Python `d.get(k)` / `d[k]` lookup (first — and for unique keys, only —
binding). -/
def pyDictGet (d : List (String × String)) (k : String) : Option String :=
  (d.find? fun p => p.1 == k).map Prod.snd

/-- `BotMemory.store_interaction`: build `base_metadata` from the generated
type and timestamp, then—only when the caller's metadata dict is truthy
(non-`None` and nonempty)—`update` it with the caller's entries.  Returns
the metadata dict persisted alongside the document. -/
def store_interaction_metadata (interaction_type timestamp : String)
    (metadata : Option (List (String × String))) : List (String × String) :=
  let base := [("type", interaction_type), ("timestamp", timestamp)]
  match metadata with
  | some md => if md != [] then pyDictUpdate base md else base
  | none => base

/-! ### Orchestrator (`InfraBot.execute_task`)

External collaborators are oracles packaged in `Env`; fallible calls return
`Except String` (a thrown Python exception is `.error msg`).  Observable
side effects are collected in an event trace.  `AnsibleRunner.run_ad_hoc`
and `run_playbook` wrap every internal exception into a result dict, so
their oracles are total; `BotMemory.store_interaction` and
`store_playbook_execution` perform an unguarded `collection.add` and may
throw; `BotMemory.get_context` catches internally and never throws. -/

/-- Result dict of `AnsibleRunner.run_ad_hoc`: `stdout`/`stderr` keys are
absent (`none`) on the timeout/exception branches. -/
structure AnsibleResult where
  success : Bool
  stdout : Option String
  stderr : Option String
deriving Repr, DecidableEq

/-- Result dict of `AnsibleRunner.run_playbook`; the `error` key exists only
on the timeout/exception branches. -/
structure PBResult where
  success : Bool
  error : Option String
deriving Repr, DecidableEq

/-- Result dict of `InfraBot._execute_simple_query`
(`output`/`task` present on success, `error` on failure). -/
structure SimpleResult where
  success : Bool
  output : Option String
  task : Option String
  error : Option String
deriving Repr, DecidableEq

/-- Content handed to `store_interaction`: either plain text or the crew
result dict (serialized by `str()` inside the store). -/
inductive StoreContent where
  | text (s : String)
  | resultDict (r : CrewResult)
deriving Repr, DecidableEq

/-- Observable effects of one `execute_task` call. -/
inductive Event where
  | adhoc (cmd : String)
  | crewCall (task : String)
  | store (kind : String) (content : StoreContent)
  | playbookRun (content : String)
  | storePB (task : String)
deriving Repr, DecidableEq

def isAdhocEv : Event → Bool
  | .adhoc _ => true
  | _ => false

def isCrewEv : Event → Bool
  | .crewCall _ => true
  | _ => false

def isStoreEv : Event → Bool
  | .store _ _ => true
  | _ => false

/-- Oracles for the external collaborators of one `InfraBot` instance. -/
structure Env where
  adhoc : String → AnsibleResult
  storeInteraction : String → StoreContent → Except String Unit
  getContext : String → List CtxEntry
  kickoff : String → List CtxEntry → Except String String
  runPlaybook : String → PBResult
  storePlaybookExec : String → String → Except String Unit

/-- The `simple_keywords` list gating the fast path in `execute_task`. -/
def simple_keywords : List String :=
  ["time", "date", "disk", "space", "usage", "memory", "uptime", "status", "show",
   "check", "get", "user", "users", "list", "who", "whoami", "name", "current"]

/-- `any(keyword in task_description.lower() for keyword in simple_keywords)`. -/
def fastGate (task : String) : Bool :=
  simple_keywords.any fun k => pyIn k (pyLower task)

/-- `InfraBot._execute_simple_query`: select the longest matching keyword's
command; if one exists run it ad hoc and report success exactly when the
executor result is successful with truthy stdout; otherwise report failure
without executing anything. -/
def execute_simple_query (env : Env) (system task : String) : SimpleResult × List Event :=
  match (selectCommand (get_os_commands system) (pyLower task)).1 with
  | some cmd =>
    let r := env.adhoc cmd
    if r.success && (r.stdout.getD "") != "" then
      ({ success := true, output := r.stdout, task := some task, error := none }, [.adhoc cmd])
    else
      ({ success := false, output := none, task := none,
         error := some (r.stderr.getD "No output") }, [.adhoc cmd])
  | none =>
    ({ success := false, output := none, task := none,
       error := some "No command mapping found" }, [])

/-- Result returned by `execute_task`: the simple-query dict on a fast-path
success, the crew result dict otherwise, or the handler's `{"error": msg}`. -/
inductive TaskResult where
  | simple (r : SimpleResult)
  | crewRes (r : CrewResult)
  | errorRes (msg : String)
deriving Repr, DecidableEq

/-- `InfraBot._execute_playbook`: run the playbook, print, then persist the
execution record.  When the run failed without an `error` key the
`result['error']` access raises `KeyError`; a throwing
`store_playbook_execution` also propagates (the `finally` only deletes the
temp file). -/
def execute_playbook (env : Env) (pc task : String) : Except String Unit × List Event :=
  let r := env.runPlaybook pc
  if r.success then
    match env.storePlaybookExec task pc with
    | .ok _ => (.ok (), [.playbookRun pc, .storePB task])
    | .error e => (.error e, [.playbookRun pc])
  else
    match r.error with
    | none => (.error "KeyError: 'error'", [.playbookRun pc])
    | some _ =>
      match env.storePlaybookExec task pc with
      | .ok _ => (.ok (), [.playbookRun pc, .storePB task])
      | .error e => (.error e, [.playbookRun pc])

/-- The fast-path check at the top of `execute_task`'s `try` block: the
simple query runs only when a `simple_keywords` member occurs in the
lowered description. -/
def fastResult (env : Env) (system task : String) : SimpleResult × List Event :=
  if fastGate task then execute_simple_query env system task
  else ({ success := false, output := none, task := none, error := none }, [])

/-- The remainder of `execute_task`'s `try` block after the fast-path check
failed to short-circuit: store the user request, retrieve context, run the
crew, parse, dispatch a truthy playbook, store the task result.  An
`.error` value is an exception reaching the end of the `try` block. -/
def pipelineTail (env : Env) (task : String) (ev1 : List Event) :
    Except String TaskResult × List Event :=
  match env.storeInteraction "user_request" (.text task) with
  | .error e => (.error e, ev1)
  | .ok _ =>
    let ev2 := ev1 ++ [Event.store "user_request" (.text task)]
    let ctx := env.getContext task
    match env.kickoff task ctx with
    | .error e => (.error e, ev2 ++ [Event.crewCall task])
    | .ok raw =>
      let r := parse_crew_result raw task
      let ev3 := ev2 ++ [Event.crewCall task]
      let disp : Except String Unit × List Event :=
        if !pcFalsy r.playbook_content then
          execute_playbook env (r.playbook_content.getD "") task
        else (.ok (), [])
      match disp.1 with
      | .error e => (.error e, ev3 ++ disp.2)
      | .ok _ =>
        match env.storeInteraction "task_result" (.resultDict r) with
        | .error e => (.error e, ev3 ++ disp.2)
        | .ok _ =>
          (.ok (.crewRes r),
           ev3 ++ disp.2 ++ [Event.store "task_result" (.resultDict r)])

/-- The whole `try` block of `InfraBot.execute_task`. -/
def execute_task_body (env : Env) (system task : String) :
    Except String TaskResult × List Event :=
  let s := fastResult env system task
  if fastGate task && s.1.success then (.ok (.simple s.1), s.2)
  else pipelineTail env task s.2

/-- `InfraBot.execute_task`: run the `try` block; on an exception, build the
error message, record it as an `"error"` interaction and return
`{"error": msg}` — but an exception thrown by that recording write itself
propagates to the caller. -/
def execute_task (env : Env) (system task : String) :
    Except String TaskResult × List Event :=
  match execute_task_body env system task with
  | (.ok r, evs) => (.ok r, evs)
  | (.error e, evs) =>
    let msg := "Failed to execute task: " ++ e
    match env.storeInteraction "error" (.text msg) with
    | .ok _ => (.ok (.errorRes msg), evs ++ [Event.store "error" (.text msg)])
    | .error e2 => (.error e2, evs)

/-- `True` when the control flow of `execute_task` reaches the reasoning
pipeline part of the `try` block (no successful fast-path short circuit). -/
def reaches_pipeline (env : Env) (system task : String) : Bool :=
  !(fastGate task && (fastResult env system task).1.success)

/-! ### Claim-side definitions and concrete scenario environments -/

/-- A stripped line beginning with one of the parser's recognized tags
(such a line is handled by an earlier branch of the scanning loop and is
therefore never captured as `FINAL_CODE` content). -/
def isTagLine (s : String) : Bool :=
  pyStartsWith "STATUS:" s || pyStartsWith "APPROACH:" s || pyStartsWith "RESULT:" s ||
  pyStartsWith "OUTPUT:" s || pyStartsWith "FINAL_CODE:" s

/-- The lines the scanner actually captures from the text following the
`FINAL_CODE:` marker: the stripped form of every non-blank line whose
stripped form is not itself a tag line. -/
def capturedLines (post : List String) : List String :=
  post.filterMap fun l =>
    let s := pyStrip l
    if s != "" && !isTagLine s then some s else none

/-- The claim's reading of the `FINAL_CODE` step: the verbatim (unstripped)
newline-join of every subsequent non-blank line of the text. -/
def verbatim_final_code (raw : String) : Option String :=
  match (pySplitLines raw).dropWhile (fun l => !pyStartsWith "FINAL_CODE:" (pyStrip l)) with
  | [] => none
  | _ :: post => some (joinLines (post.filter fun l => pyStrip l != ""))

/-- The first line containing one of the sniffed command substrings
(case-insensitively), as scanned by the command-sniff fallback. -/
def firstSniffLine : List String → Option String
  | [] => none
  | line :: rest =>
    if sniffCmds.any (fun c => pyIn c (pyLower line)) then some line
    else firstSniffLine rest

/-- A healthy environment: the ad-hoc executor succeeds with output, all
stores succeed, the crew returns plain prose. -/
def envGood : Env :=
  { adhoc := fun _ => ⟨true, some "out", some ""⟩,
    storeInteraction := fun _ _ => .ok (),
    getContext := fun _ => [],
    kickoff := fun _ _ => .ok "hello",
    runPlaybook := fun _ => ⟨true, none⟩,
    storePlaybookExec := fun _ _ => .ok () }

/-- Like `envGood` but the ad-hoc executor fails (non-zero exit). -/
def envFailAdhoc : Env :=
  { envGood with adhoc := fun _ => ⟨false, some "", some "err"⟩ }

/-- Like `envGood` but every `store_interaction` write throws. -/
def envBadStore : Env :=
  { envGood with storeInteraction := fun _ _ => .error "db down" }

/-- Like `envGood` but the crew kickoff throws a transport timeout. -/
def envKickErr : Env :=
  { envGood with kickoff := fun _ _ => .error "timeout" }

/-- Reviewer text whose `FINAL_CODE` block is indented: the capture strips
the indentation, so the content is not the verbatim lines. -/
def c4raw : String := "FINAL_CODE:\n  - name: install\n    apt: name=nginx"

/-- Reviewer text with no tags and no YAML indicators whose only line is a
tab-indented service-manager command. -/
def c8raw : String := "\tsystemctl restart nginx"

/-- The playbook the command-sniff fallback synthesizes for `c8raw`. -/
def c8playbook : String :=
  "---\n- hosts: localhost\n  become: yes\n  tasks:\n    - name: Execute command\n      shell: systemctl restart nginx\n"

/-! ## Theorems -/

/-- C5: for every pair of partition query results and every limit, context
retrieval returns at most `limit` combined entries, and the returned list is
sorted by `relevance_score` in ascending order (no entry is followed by one
with a smaller score). -/
theorem get_context_bounded_and_sorted (interHits playHits : List QHit)
    (interHasDist playHasDist : Bool) (limit : Nat) :
    (get_context interHits playHits interHasDist playHasDist limit).length ≤ limit ∧
    List.Pairwise ctxLe (get_context interHits playHits interHasDist playHasDist limit) := by
  constructor
  · exact List.length_take_le limit (List.insertionSort ctxLe _)
  · have hs := List.sorted_insertionSort ctxLe
      ((interHits.map fun h =>
          CtxEntry.mk "interaction" h.doc h.md (if interHasDist then h.dist else 1)) ++
        playHits.map fun h =>
          CtxEntry.mk "playbook" h.doc h.md (if playHasDist then h.dist else 1))
    exact List.Pairwise.sublist (List.take_sublist _ _) hs

/-- C9: the Extractor is a pure function of the reviewer text: applying it
twice to the same text yields identical approach, status and content fields
(the embedding of `_parse_crew_result` reads no mutable state). -/
theorem extractor_deterministic (raw task : String) :
    (parse_crew_result raw task).approach = (parse_crew_result raw task).approach ∧
    (parse_crew_result raw task).status = (parse_crew_result raw task).status ∧
    (parse_crew_result raw task).playbook_content =
      (parse_crew_result raw task).playbook_content ∧
    parse_crew_result raw task = parse_crew_result raw task :=
  ⟨rfl, rfl, rfl, rfl⟩

/-- C7: `get_recent_history` applies the backend `limit` to the filtered
partition *before* the client-side sort, so with two `user_request` records
(timestamps 1 and 2, in that backend order) and `limit = 1` it returns the
older record, while the claimed behaviour (`recent_per_spec`: the `limit`
newest matching entries, newest first) returns the newer one. -/
theorem recent_history_truncates_before_sort :
    get_recent_history [⟨"a", "user_request", 1⟩, ⟨"b", "user_request", 2⟩] 1 = [⟨"a", 1⟩] ∧
    recent_per_spec [⟨"a", "user_request", 1⟩, ⟨"b", "user_request", 2⟩] 1 = [⟨"b", 2⟩] ∧
    get_recent_history [⟨"a", "user_request", 1⟩, ⟨"b", "user_request", 2⟩] 1 ≠
      recent_per_spec [⟨"a", "user_request", 1⟩, ⟨"b", "user_request", 2⟩] 1 :=
  ⟨rfl, rfl, by decide⟩

/-! #### Python dict lemmas for `store_interaction` -/

theorem pyDictGet_set_self (d : List (String × String)) (k v : String) :
    pyDictGet (pyDictSet d k v) k = some v := by
  induction d with
  | nil => simp [pyDictSet, pyDictGet]
  | cons p rest ih =>
    by_cases h : p.1 == k
    · simp [pyDictSet, pyDictGet, h]
    · have hset : pyDictSet (p :: rest) k v = p :: pyDictSet rest k v := by
        simp [pyDictSet, h]
      rw [hset]
      simp only [pyDictGet, List.find?_cons] at ih ⊢
      simp only [h, if_false, Bool.false_eq_true, if_neg]
      exact ih

theorem pyDictGet_set_other (d : List (String × String)) (k v k' : String) (h : k' ≠ k) :
    pyDictGet (pyDictSet d k v) k' = pyDictGet d k' := by
  have hkk : ((k, v).1 == k') = false := by
    simp only [beq_eq_false_iff_ne, ne_eq]
    exact fun hk => h hk.symm
  induction d with
  | nil => simp [pyDictGet, pyDictSet, List.find?_cons, hkk]
  | cons p rest ih =>
    by_cases hp : p.1 == k
    · have hp' : p.1 = k := by simpa using hp
      have hpk' : (p.1 == k') = false := by
        simp only [beq_eq_false_iff_ne, ne_eq, hp']
        exact fun hk => h hk.symm
      have hset : pyDictSet (p :: rest) k v = (k, v) :: rest := by
        simp [pyDictSet, hp]
      rw [hset]
      simp [pyDictGet, List.find?_cons, hkk, hpk']
    · have hset : pyDictSet (p :: rest) k v = p :: pyDictSet rest k v := by
        simp [pyDictSet, hp]
      rw [hset]
      by_cases hq : p.1 == k'
      · simp [pyDictGet, List.find?_cons, hq]
      · simp only [pyDictGet, List.find?_cons] at ih ⊢
        simp only [Bool.not_eq_true] at hq
        simp only [hq, Bool.false_eq_true, if_neg, not_false_eq_true]
        exact ih

theorem pyDictGet_update_not_mem (upd d : List (String × String)) (k : String)
    (h : k ∉ upd.map Prod.fst) :
    pyDictGet (pyDictUpdate d upd) k = pyDictGet d k := by
  induction upd generalizing d with
  | nil => rfl
  | cons p rest ih =>
    simp only [List.map_cons, List.mem_cons, not_or] at h
    simp only [pyDictUpdate, List.foldl_cons]
    rw [show (List.foldl (fun d p => pyDictSet d p.1 p.2) (pyDictSet d p.1 p.2) rest) =
        pyDictUpdate (pyDictSet d p.1 p.2) rest from rfl]
    rw [ih _ h.2, pyDictGet_set_other _ _ _ _ (fun hk => h.1 hk)]

theorem pyDictGet_update_mem (upd d : List (String × String)) (k v : String)
    (hmem : (k, v) ∈ upd) (hnd : (upd.map Prod.fst).Nodup) :
    pyDictGet (pyDictUpdate d upd) k = some v := by
  induction upd generalizing d with
  | nil => cases hmem
  | cons p rest ih =>
    simp only [List.map_cons, List.nodup_cons] at hnd
    simp only [pyDictUpdate, List.foldl_cons]
    rw [show (List.foldl (fun d p => pyDictSet d p.1 p.2) (pyDictSet d p.1 p.2) rest) =
        pyDictUpdate (pyDictSet d p.1 p.2) rest from rfl]
    rcases List.mem_cons.mp hmem with heq | htail
    · have hk : k ∉ rest.map Prod.fst := by
        rw [← heq] at hnd
        exact hnd.1
      rw [pyDictGet_update_not_mem _ _ _ hk, ← heq, pyDictGet_set_self]
    · exact ih _ htail hnd.2

/-- C10: a caller-supplied `type` or `timestamp` metadata key overrides the
generated fields in the persisted metadata, and with no caller metadata the
persisted metadata is exactly the generated type and timestamp. -/
theorem store_interaction_metadata_override (interaction_type timestamp : String)
    (md : List (String × String)) (hnd : (md.map Prod.fst).Nodup) :
    (∀ v, ("type", v) ∈ md →
      pyDictGet (store_interaction_metadata interaction_type timestamp (some md)) "type" =
        some v) ∧
    (∀ v, ("timestamp", v) ∈ md →
      pyDictGet (store_interaction_metadata interaction_type timestamp (some md)) "timestamp" =
        some v) ∧
    store_interaction_metadata interaction_type timestamp none =
      [("type", interaction_type), ("timestamp", timestamp)] := by
  refine ⟨fun v hv => ?_, fun v hv => ?_, rfl⟩ <;>
  · have hne : (md != []) = true := by
      simp [bne_iff_ne]
      exact List.ne_nil_of_mem hv
    simp only [store_interaction_metadata, hne, if_true]
    exact pyDictGet_update_mem _ _ _ _ hv hnd

/-- Witness for C10 at a concrete call: the caller's `type` key wins. -/
theorem store_interaction_metadata_override_witness :
    pyDictGet
      (store_interaction_metadata "user_request" "2024-01-01T00:00:00"
        (some [("type", "custom"), ("host", "web1")])) "type" = some "custom" :=
  (store_interaction_metadata_override "user_request" "2024-01-01T00:00:00"
    [("type", "custom"), ("host", "web1")] (by decide)).1 "custom" (by decide)

/-! #### Fast-path keyword selection lemmas -/

theorem selStep_best_le (t : String) (acc : Option String × Nat) (kv : String × String) :
    acc.2 ≤ (selStep t acc kv).2 := by
  unfold selStep
  split
  · next h =>
    have := of_decide_eq_true (Bool.and_elim_right h)
    exact le_of_lt this
  · exact le_refl _

theorem foldl_selStep_best_mono (t : String) (l : List (String × String))
    (acc : Option String × Nat) :
    acc.2 ≤ (l.foldl (selStep t) acc).2 := by
  induction l generalizing acc with
  | nil => exact le_refl _
  | cons kv rest ih =>
    exact le_trans (selStep_best_le t acc kv) (ih (selStep t acc kv))

theorem foldl_selStep_max (t : String) :
    ∀ (l : List (String × String)) (acc : Option String × Nat) (k' c' : String),
      (k', c') ∈ l → pyIn k' t = true → k'.length ≤ (l.foldl (selStep t) acc).2 := by
  intro l
  induction l with
  | nil => intro acc k' c' hmem _; cases hmem
  | cons kv rest ih =>
    intro acc k' c' hmem hmatch
    rcases List.mem_cons.mp hmem with heq | htail
    · have hstep : k'.length ≤ (selStep t acc kv).2 := by
        rw [← heq]
        unfold selStep
        by_cases hlt : acc.2 < k'.length
        · simp [hmatch, hlt]
        · simp only [decide_eq_true_eq]
          rw [if_neg]
          · exact Nat.le_of_not_lt hlt
          · intro hcontra
            exact hlt (of_decide_eq_true (Bool.and_elim_right hcontra))
      exact le_trans hstep (foldl_selStep_best_mono t rest (selStep t acc kv))
    · exact ih (selStep t acc kv) k' c' htail hmatch

theorem foldl_selStep_attain (t : String) (l : List (String × String))
    (acc : Option String × Nat) :
    l.foldl (selStep t) acc = acc ∨
    ∃ k c, (k, c) ∈ l ∧ pyIn k t = true ∧ l.foldl (selStep t) acc = (some c, k.length) := by
  induction l generalizing acc with
  | nil => exact Or.inl rfl
  | cons kv rest ih =>
    rcases ih (selStep t acc kv) with hflat | ⟨k, c, hmem, hm, heq⟩
    · rw [List.foldl_cons]
      rw [hflat]
      unfold selStep
      split
      · next h =>
        exact Or.inr ⟨kv.1, kv.2, List.mem_cons_self _ _, Bool.and_elim_left h, rfl⟩
      · exact Or.inl rfl
    · exact Or.inr ⟨k, c, List.mem_cons_of_mem _ hmem, hm, heq⟩

/-- C2: when two distinct fast-path keywords both occur (case-insensitively)
in the task description, the router's keyword loop selects the command of a
matching keyword of greatest string length among all matches. -/
theorem fastpath_selects_longest_keyword (system task k₁ c₁ k₂ c₂ : String)
    (h₁ : (k₁, c₁) ∈ get_os_commands system) (h₂ : (k₂, c₂) ∈ get_os_commands system)
    (hne : k₁ ≠ k₂)
    (hm₁ : pyIn k₁ (pyLower task) = true) (hm₂ : pyIn k₂ (pyLower task) = true) :
    ∃ k c, (k, c) ∈ get_os_commands system ∧ pyIn k (pyLower task) = true ∧
      (selectCommand (get_os_commands system) (pyLower task)).1 = some c ∧
      ∀ k' c', (k', c') ∈ get_os_commands system → pyIn k' (pyLower task) = true →
        k'.length ≤ k.length := by
  rcases foldl_selStep_attain (pyLower task) (get_os_commands system) (none, 0) with
    hflat | ⟨k, c, hmem, hm, heq⟩
  · exfalso
    have hb₁ := foldl_selStep_max (pyLower task) (get_os_commands system) (none, 0) k₁ c₁ h₁ hm₁
    have hb₂ := foldl_selStep_max (pyLower task) (get_os_commands system) (none, 0) k₂ c₂ h₂ hm₂
    rw [hflat] at hb₁ hb₂
    simp only [Nat.le_zero] at hb₁ hb₂
    have e₁ : k₁ = "" := by
      cases k₁ with
      | mk data =>
        cases data with
        | nil => rfl
        | cons c cs => simp [String.length] at hb₁
    have e₂ : k₂ = "" := by
      cases k₂ with
      | mk data =>
        cases data with
        | nil => rfl
        | cons c cs => simp [String.length] at hb₂
    exact hne (e₁.trans e₂.symm)
  · refine ⟨k, c, hmem, hm, ?_, ?_⟩
    · unfold selectCommand
      rw [heq]
    · intro k' c' hmem' hm'
      have := foldl_selStep_max (pyLower task) (get_os_commands system) (none, 0) k' c' hmem' hm'
      rw [heq] at this
      exact this

/-- Witness for C2 at the spec's own example: "check disk space now" on
Linux matches both `disk` and `disk space`; the selected command is that of
a longest matching keyword (the `disk space` mapping, `df -h`). -/
theorem fastpath_selects_longest_keyword_witness :
    ∃ k c, (k, c) ∈ get_os_commands "Linux" ∧ pyIn k (pyLower "check disk space now") = true ∧
      (selectCommand (get_os_commands "Linux") (pyLower "check disk space now")).1 = some c ∧
      ∀ k' c', (k', c') ∈ get_os_commands "Linux" →
        pyIn k' (pyLower "check disk space now") = true → k'.length ≤ k.length :=
  fastpath_selects_longest_keyword "Linux" "check disk space now" "disk" "df -h"
    "disk space" "df -h" (by decide) (by decide) (by decide) (by decide) (by decide)

/-! #### Orchestrator trace lemmas -/

theorem execute_playbook_events (env : Env) (pc task : String) :
    (execute_playbook env pc task).2.countP isAdhocEv = 0 ∧
    (execute_playbook env pc task).2.countP isCrewEv = 0 := by
  unfold execute_playbook
  cases hs : (env.runPlaybook pc).success with
  | true =>
    cases env.storePlaybookExec task pc <;>
      simp [hs, List.countP, List.countP.go, isAdhocEv, isCrewEv]
  | false =>
    cases he : (env.runPlaybook pc).error with
    | none => simp [hs, he, List.countP, List.countP.go, isAdhocEv, isCrewEv]
    | some x =>
      cases env.storePlaybookExec task pc <;>
        simp [hs, he, List.countP, List.countP.go, isAdhocEv, isCrewEv]

theorem pipelineTail_events (env : Env) (task : String) (ev1 : List Event) :
    ∃ rest, (pipelineTail env task ev1).2 = ev1 ++ rest ∧
      rest.countP isAdhocEv = 0 ∧ rest.countP isCrewEv ≤ 1 := by
  unfold pipelineTail
  cases hu : env.storeInteraction "user_request" (.text task) with
  | error e => exact ⟨[], by simp [hu], by simp, by simp⟩
  | ok u =>
    simp only [hu]
    cases hk : env.kickoff task (env.getContext task) with
    | error e =>
      simp only [hk]
      refine ⟨[Event.store "user_request" (.text task), Event.crewCall task], by simp, ?_, ?_⟩ <;>
        simp [List.countP_cons, isAdhocEv, isCrewEv]
    | ok raw =>
      simp only [hk]
      cases hpc : pcFalsy (parse_crew_result raw task).playbook_content with
      | true =>
        simp only [hpc, Bool.not_true, Bool.false_eq_true, if_false]
        cases ht : env.storeInteraction "task_result" (.resultDict (parse_crew_result raw task)) with
        | error e =>
          simp only [ht]
          refine ⟨[Event.store "user_request" (.text task), Event.crewCall task], by simp, ?_, ?_⟩ <;>
            simp [List.countP_cons, isAdhocEv, isCrewEv]
        | ok u3 =>
          simp only [ht]
          refine ⟨[Event.store "user_request" (.text task), Event.crewCall task,
            Event.store "task_result" (.resultDict (parse_crew_result raw task))], by simp, ?_, ?_⟩ <;>
            simp [List.countP_cons, isAdhocEv, isCrewEv]
      | false =>
        simp only [hpc, Bool.not_false, if_true]
        have hdc := execute_playbook_events env
          ((parse_crew_result raw task).playbook_content.getD "") task
        cases hd : (execute_playbook env
            ((parse_crew_result raw task).playbook_content.getD "") task).1 with
        | error e =>
          simp only [hd]
          refine ⟨[Event.store "user_request" (.text task), Event.crewCall task] ++
            (execute_playbook env ((parse_crew_result raw task).playbook_content.getD "") task).2,
            by simp, ?_, ?_⟩
          · simp [List.countP_append, List.countP_cons, hdc.1, isAdhocEv, isCrewEv]
          · simp [List.countP_append, List.countP_cons, hdc.2, isAdhocEv, isCrewEv]
        | ok u2 =>
          simp only [hd]
          cases ht : env.storeInteraction "task_result" (.resultDict (parse_crew_result raw task)) with
          | error e =>
            simp only [ht]
            refine ⟨[Event.store "user_request" (.text task), Event.crewCall task] ++
              (execute_playbook env ((parse_crew_result raw task).playbook_content.getD "") task).2,
              by simp, ?_, ?_⟩
            · simp [List.countP_append, List.countP_cons, hdc.1, isAdhocEv, isCrewEv]
            · simp [List.countP_append, List.countP_cons, hdc.2, isAdhocEv, isCrewEv]
          | ok u3 =>
            simp only [ht]
            refine ⟨[Event.store "user_request" (.text task), Event.crewCall task] ++
              (execute_playbook env ((parse_crew_result raw task).playbook_content.getD "") task).2 ++
              [Event.store "task_result" (.resultDict (parse_crew_result raw task))],
              by simp, ?_, ?_⟩
            · simp [List.countP_append, List.countP_cons, hdc.1, isAdhocEv, isCrewEv]
            · simp [List.countP_append, List.countP_cons, hdc.2, isAdhocEv, isCrewEv]

theorem fastResult_events (env : Env) (system task : String) :
    (fastResult env system task).2.countP isAdhocEv ≤ 1 ∧
    (fastResult env system task).2.countP isCrewEv = 0 ∧
    (fastResult env system task).2.countP isStoreEv = 0 := by
  unfold fastResult execute_simple_query
  split
  · split
    · dsimp only
      split <;> simp [List.countP, List.countP.go, isAdhocEv, isCrewEv, isStoreEv]
    · simp
  · simp

theorem execute_task_body_of_fast_success (env : Env) (system task : String)
    (hcond : (fastGate task && (fastResult env system task).1.success) = true) :
    execute_task_body env system task =
      (.ok (.simple (fastResult env system task).1), (fastResult env system task).2) := by
  unfold execute_task_body
  dsimp only
  simp [hcond]

theorem execute_task_body_of_pipeline (env : Env) (system task : String)
    (hcond : (fastGate task && (fastResult env system task).1.success) = false) :
    execute_task_body env system task = pipelineTail env task (fastResult env system task).2 := by
  unfold execute_task_body
  dsimp only
  simp [hcond]

theorem execute_task_of_body_ok (env : Env) (system task : String) (r : TaskResult)
    (evs : List Event) (h : execute_task_body env system task = (.ok r, evs)) :
    execute_task env system task = (.ok r, evs) := by
  unfold execute_task
  rw [h]

theorem execute_task_of_body_error_store_ok (env : Env) (system task e : String)
    (evs : List Event) (u : Unit)
    (h : execute_task_body env system task = (.error e, evs))
    (hs : env.storeInteraction "error" (.text ("Failed to execute task: " ++ e)) = .ok u) :
    execute_task env system task =
      (.ok (.errorRes ("Failed to execute task: " ++ e)),
       evs ++ [Event.store "error" (.text ("Failed to execute task: " ++ e))]) := by
  unfold execute_task
  rw [h]
  dsimp only
  rw [hs]

theorem execute_task_of_body_error_store_error (env : Env) (system task e : String)
    (evs : List Event) (e2 : String)
    (h : execute_task_body env system task = (.error e, evs))
    (hs : env.storeInteraction "error" (.text ("Failed to execute task: " ++ e)) = .error e2) :
    execute_task env system task = (.error e2, evs) := by
  unfold execute_task
  rw [h]
  dsimp only
  rw [hs]

theorem execute_task_body_trace (env : Env) (system task : String) :
    ∃ rest, (execute_task_body env system task).2 = (fastResult env system task).2 ++ rest ∧
      rest.countP isAdhocEv = 0 ∧ rest.countP isCrewEv ≤ 1 ∧
      ((fastGate task && (fastResult env system task).1.success) = true → rest = []) := by
  cases hcond : fastGate task && (fastResult env system task).1.success with
  | true =>
    rw [execute_task_body_of_fast_success env system task hcond]
    exact ⟨[], by simp, rfl, by simp, fun _ => rfl⟩
  | false =>
    rw [execute_task_body_of_pipeline env system task hcond]
    obtain ⟨rest, htr, h0, h1⟩ := pipelineTail_events env task (fastResult env system task).2
    exact ⟨rest, htr, h0, h1, fun hc => by simp [hcond] at hc⟩

theorem execute_task_trace (env : Env) (system task : String) :
    ∃ rest, (execute_task env system task).2 = (fastResult env system task).2 ++ rest ∧
      rest.countP isAdhocEv = 0 ∧ rest.countP isCrewEv ≤ 1 ∧
      ((fastGate task && (fastResult env system task).1.success) = true → rest = []) := by
  obtain ⟨rest, htr, h0, h1, hsc⟩ := execute_task_body_trace env system task
  rcases hbody : execute_task_body env system task with ⟨b1, b2⟩
  rw [hbody] at htr
  simp only at htr
  cases b1 with
  | ok r =>
    rw [execute_task_of_body_ok env system task r b2 hbody]
    exact ⟨rest, htr, h0, h1, fun hc => hsc hc⟩
  | error e =>
    cases hes : env.storeInteraction "error" (.text ("Failed to execute task: " ++ e)) with
    | ok u =>
      rw [execute_task_of_body_error_store_ok env system task e b2 u hbody hes]
      refine ⟨rest ++ [Event.store "error" (.text ("Failed to execute task: " ++ e))], ?_, ?_, ?_, ?_⟩
      · simp only
        rw [htr, List.append_assoc]
      · simp [List.countP_append, h0, isAdhocEv]
      · have : List.countP isCrewEv [Event.store "error"
            (.text ("Failed to execute task: " ++ e))] = 0 := by
          simp [List.countP_cons, isCrewEv]
        rw [List.countP_append, this]
        omega
      · intro hc
        exfalso
        have := hsc hc
        rw [this] at htr
        rw [execute_task_body_of_fast_success env system task hc] at hbody
        simp only [Prod.mk.injEq] at hbody
        cases hbody.1
    | error e2 =>
      rw [execute_task_of_body_error_store_error env system task e b2 e2 hbody hes]
      refine ⟨rest, htr, h0, h1, fun hc => ?_⟩
      exfalso
      rw [execute_task_body_of_fast_success env system task hc] at hbody
      simp only [Prod.mk.injEq] at hbody
      cases hbody.1


/-- C1 (amended): every task performs at most one direct command execution
and at most one reasoning-pipeline call; a task whose fast-path query
succeeds is short-circuited with that result and no pipeline call; and the
pipeline is called only when the task was not successfully short-circuited
(a keyword-matched task whose direct execution fails is followed by one
pipeline run). -/
theorem orchestrator_dispatch_bounds (env : Env) (system task : String) :
    ((execute_task env system task).2.countP isAdhocEv ≤ 1 ∧
     (execute_task env system task).2.countP isCrewEv ≤ 1) ∧
    (fastGate task = true → (execute_simple_query env system task).1.success = true →
      (execute_task env system task).1 = .ok (.simple (execute_simple_query env system task).1) ∧
      (execute_task env system task).2.countP isCrewEv = 0) ∧
    ((execute_task env system task).2.countP isCrewEv = 1 →
      reaches_pipeline env system task = true) := by
  obtain ⟨rest, htr, h0, h1, hsc⟩ := execute_task_trace env system task
  obtain ⟨fa, fc, fs⟩ := fastResult_events env system task
  refine ⟨⟨?_, ?_⟩, ?_, ?_⟩
  · rw [htr, List.countP_append]
    omega
  · rw [htr, List.countP_append]
    omega
  · intro hg hsucc
    have hfast : fastResult env system task = execute_simple_query env system task := by
      unfold fastResult
      rw [hg]
      simp
    have hcond : (fastGate task && (fastResult env system task).1.success) = true := by
      rw [hg, hfast, hsucc]
      rfl
    have hbody := execute_task_body_of_fast_success env system task hcond
    constructor
    · rw [execute_task_of_body_ok env system task _ _ hbody, hfast]
    · rw [htr, hsc hcond, List.append_nil]
      exact fc
  · intro hcnt
    cases hrp : reaches_pipeline env system task with
    | true => rfl
    | false =>
      exfalso
      have hcond : (fastGate task && (fastResult env system task).1.success) = true := by
        unfold reaches_pipeline at hrp
        simpa using hrp
      rw [htr, hsc hcond, List.append_nil] at hcnt
      omega

/-- Witness for C1 at a concrete healthy environment and the task "disk":
the fast path succeeds and no reasoning-pipeline call happens. -/
theorem orchestrator_dispatch_bounds_witness :
    (execute_task envGood "Linux" "disk").1 =
      .ok (.simple (execute_simple_query envGood "Linux" "disk").1) ∧
    (execute_task envGood "Linux" "disk").2.countP isCrewEv = 0 :=
  (orchestrator_dispatch_bounds envGood "Linux" "disk").2.1 (by decide) (by decide)

/-- Counterexample to C1 as stated: with a failing ad-hoc executor, the task
"disk" performs one direct command execution *and* one full
reasoning-pipeline run — the fast-path failure falls through to the
pipeline instead of short-circuiting. -/
theorem fastpath_failure_runs_pipeline_counterexample :
    (execute_task envFailAdhoc "Linux" "disk").2.countP isAdhocEv = 1 ∧
    (execute_task envFailAdhoc "Linux" "disk").2.countP isCrewEv = 1 := by
  decide

theorem body_error_of_kickoff_error (env : Env) (system task e : String)
    (hreach : reaches_pipeline env system task = true)
    (hst : env.storeInteraction "user_request" (.text task) = .ok ())
    (hk : env.kickoff task (env.getContext task) = .error e) :
    (execute_task_body env system task).1 = .error e := by
  have hcond : (fastGate task && (fastResult env system task).1.success) = false := by
    unfold reaches_pipeline at hreach
    cases hc : fastGate task && (fastResult env system task).1.success with
    | false => rfl
    | true =>
      rw [hc] at hreach
      simp at hreach
  rw [execute_task_body_of_pipeline env system task hcond]
  unfold pipelineTail
  rw [hst]
  simp only [hk]

/-- C3 (amended): provided the handler's error-recording write itself does
not throw, `execute_task` converts every internal exception into a
structured `{"error": msg}` result with the error recorded in the Context
Store, and never returns a raw exception — in particular a reasoning
pipeline (kickoff) failure yields the structured failure result.  (When the
error-recording write throws, the exception propagates: see the
counterexample.) -/
theorem orchestrator_error_boundary (env : Env) (system task : String)
    (hstore : ∀ c, env.storeInteraction "error" c = Except.ok ()) :
    (∃ r, (execute_task env system task).1 = .ok r) ∧
    (∀ e, (execute_task_body env system task).1 = .error e →
      (execute_task env system task).1 = .ok (.errorRes ("Failed to execute task: " ++ e)) ∧
      Event.store "error" (.text ("Failed to execute task: " ++ e)) ∈
        (execute_task env system task).2) ∧
    (∀ e, reaches_pipeline env system task = true →
      env.storeInteraction "user_request" (.text task) = .ok () →
      env.kickoff task (env.getContext task) = .error e →
      (execute_task env system task).1 = .ok (.errorRes ("Failed to execute task: " ++ e))) := by
  have hhandler : ∀ e, (execute_task_body env system task).1 = .error e →
      (execute_task env system task).1 = .ok (.errorRes ("Failed to execute task: " ++ e)) ∧
      Event.store "error" (.text ("Failed to execute task: " ++ e)) ∈
        (execute_task env system task).2 := by
    intro e he
    rcases hbody : execute_task_body env system task with ⟨b1, b2⟩
    rw [hbody] at he
    simp only at he
    rw [he] at hbody
    rw [execute_task_of_body_error_store_ok env system task e b2 () hbody (hstore _)]
    exact ⟨rfl, by simp⟩
  refine ⟨?_, hhandler, ?_⟩
  · cases hb : (execute_task_body env system task).1 with
    | ok r =>
      rcases hbody : execute_task_body env system task with ⟨b1, b2⟩
      rw [hbody] at hb
      simp only at hb
      rw [hb] at hbody
      exact ⟨r, by rw [execute_task_of_body_ok env system task r b2 hbody]⟩
    | error e => exact ⟨.errorRes ("Failed to execute task: " ++ e), (hhandler e hb).1⟩
  · intro e hreach hst hk
    exact (hhandler e (body_error_of_kickoff_error env system task e hreach hst hk)).1

/-- Witness for C3: a crew transport timeout on the task "install nginx" in
an otherwise healthy environment yields the structured failure result. -/
theorem orchestrator_error_boundary_witness :
    (execute_task envKickErr "Linux" "install nginx").1 =
      .ok (.errorRes ("Failed to execute task: " ++ "timeout")) :=
  (orchestrator_error_boundary envKickErr "Linux" "install nginx" (fun _ => rfl)).2.2
    "timeout" (by decide) rfl rfl

/-- Counterexample to C3 as stated: when the Context Store write throws
(`envBadStore`), the exception raised while recording the error propagates
out of `execute_task` — the caller receives a raw exception, not a
structured result. -/
theorem error_store_throw_propagates_counterexample :
    execute_task envBadStore "Linux" "install nginx" = (.error "db down", []) :=
  rfl

theorem pipelineTail_store_first (env : Env) (task : String) (ev1 : List Event)
    (hst : env.storeInteraction "user_request" (.text task) = .ok ()) :
    ∃ suf, (pipelineTail env task ev1).2 =
      ev1 ++ Event.store "user_request" (.text task) :: suf := by
  unfold pipelineTail
  simp only [hst]
  cases hk : env.kickoff task (env.getContext task) with
  | error e => exact ⟨[Event.crewCall task], by simp⟩
  | ok raw =>
    cases hpc : pcFalsy (parse_crew_result raw task).playbook_content with
    | true =>
      simp only [hpc, Bool.not_true, Bool.false_eq_true, if_false]
      cases ht : env.storeInteraction "task_result" (.resultDict (parse_crew_result raw task)) with
      | error e => exact ⟨[Event.crewCall task], by simp⟩
      | ok u3 =>
        exact ⟨[Event.crewCall task,
          Event.store "task_result" (.resultDict (parse_crew_result raw task))], by simp⟩
    | false =>
      simp only [hpc, Bool.not_false, if_true]
      cases hd : (execute_playbook env
          ((parse_crew_result raw task).playbook_content.getD "") task).1 with
      | error e =>
        exact ⟨Event.crewCall task ::
          (execute_playbook env ((parse_crew_result raw task).playbook_content.getD "") task).2,
          by simp⟩
      | ok u2 =>
        cases ht : env.storeInteraction "task_result" (.resultDict (parse_crew_result raw task)) with
        | error e =>
          exact ⟨Event.crewCall task ::
            (execute_playbook env ((parse_crew_result raw task).playbook_content.getD "") task).2,
            by simp⟩
        | ok u3 =>
          exact ⟨Event.crewCall task ::
            ((execute_playbook env ((parse_crew_result raw task).playbook_content.getD "") task).2 ++
              [Event.store "task_result" (.resultDict (parse_crew_result raw task))]),
            by simp⟩

/-- C6 (amended): for every task that is not successfully short-circuited by
the Fast-Path Router and whose user-request write succeeds, the original
user request is recorded in the Context Store, before any
reasoning-pipeline call, by the time `execute_task` returns — in particular
it has been recorded when a pipeline failure result is returned.
(Successfully short-circuited tasks write no record at all: see the
counterexample.) -/
theorem user_request_recorded_before_pipeline (env : Env) (system task : String)
    (hreach : reaches_pipeline env system task = true)
    (hst : env.storeInteraction "user_request" (.text task) = .ok ()) :
    ∃ pre suf, (execute_task env system task).2 =
        pre ++ Event.store "user_request" (.text task) :: suf ∧
      ∀ t', Event.crewCall t' ∉ pre := by
  have hcond : (fastGate task && (fastResult env system task).1.success) = false := by
    unfold reaches_pipeline at hreach
    cases hc : fastGate task && (fastResult env system task).1.success with
    | false => rfl
    | true =>
      rw [hc] at hreach
      simp at hreach
  have hbodyeq := execute_task_body_of_pipeline env system task hcond
  obtain ⟨suf, hsuf⟩ := pipelineTail_store_first env task (fastResult env system task).2 hst
  rcases hbody : execute_task_body env system task with ⟨b1, b2⟩
  have hb2 : b2 = (pipelineTail env task (fastResult env system task).2).2 := by
    rw [hbodyeq] at hbody
    exact (congrArg Prod.snd hbody).symm
  have hfc := (fastResult_events env system task).2.1
  have hnc : ∀ t', Event.crewCall t' ∉ (fastResult env system task).2 := by
    intro t' hmem
    have hcp := List.countP_eq_zero.mp hfc _ hmem
    simp [isCrewEv] at hcp
  cases b1 with
  | ok r =>
    rw [execute_task_of_body_ok env system task r b2 hbody]
    refine ⟨(fastResult env system task).2, suf, ?_, hnc⟩
    simp only
    rw [hb2, hsuf]
  | error e =>
    cases hes : env.storeInteraction "error" (.text ("Failed to execute task: " ++ e)) with
    | ok u =>
      rw [execute_task_of_body_error_store_ok env system task e b2 u hbody hes]
      refine ⟨(fastResult env system task).2,
        suf ++ [Event.store "error" (.text ("Failed to execute task: " ++ e))], ?_, hnc⟩
      simp only
      rw [hb2, hsuf]
      simp
    | error e2 =>
      rw [execute_task_of_body_error_store_error env system task e b2 e2 hbody hes]
      refine ⟨(fastResult env system task).2, suf, ?_, hnc⟩
      simp only
      rw [hb2, hsuf]

/-- Witness for C6: with a crew transport failure on "install nginx", the
user request is still recorded before the failure result is returned. -/
theorem user_request_recorded_before_pipeline_witness :
    ∃ pre suf, (execute_task envKickErr "Linux" "install nginx").2 =
        pre ++ Event.store "user_request" (.text "install nginx") :: suf ∧
      ∀ t', Event.crewCall t' ∉ pre :=
  user_request_recorded_before_pipeline envKickErr "Linux" "install nginx" (by decide) rfl

/-- Counterexample to C6 as stated: a task successfully short-circuited by
the Fast-Path Router returns without writing any record to the Context
Store. -/
theorem shortcircuit_writes_no_record_counterexample :
    (execute_task envGood "Linux" "disk").1 =
      .ok (.simple ⟨true, some "out", some "disk", none⟩) ∧
    (execute_task envGood "Linux" "disk").2.countP isStoreEv = 0 :=
  ⟨rfl, by decide⟩

/-! #### Command-sniff fallback lemmas -/

theorem infixChars_of_pref (n h : List Char) (hp : n.isPrefixOf h = true) :
    infixChars n h = true := by
  cases h with
  | nil => simpa [infixChars] using hp
  | cons c rest => simp [infixChars, hp]

theorem infixChars_append_left (pre n h : List Char) (hi : infixChars n h = true) :
    infixChars n (pre ++ h) = true := by
  induction pre with
  | nil => simpa using hi
  | cons c cs ih => simp [infixChars, ih]

theorem pyIn_middle (a s b : String) : pyIn s (a ++ s ++ b) = true := by
  unfold pyIn
  have h1 : (a ++ s ++ b).toList = a.toList ++ (s.toList ++ b.toList) := by
    show (a ++ s ++ b).data = a.data ++ (s.data ++ b.data)
    rw [String.data_append, String.data_append, List.append_assoc]
  rw [h1]
  exact infixChars_append_left _ _ _
    (infixChars_of_pref _ _ (List.isPrefixOf_iff_prefix.mpr ⟨b.toList, rfl⟩))

theorem cmdSniff_eq_firstSniff (lines : List String) :
    cmdSniff lines = (firstSniffLine lines).map fun l => mkShellPlaybook (pyStrip l) := by
  induction lines with
  | nil => rfl
  | cons line rest ih =>
    unfold cmdSniff firstSniffLine
    cases h : sniffCmds.any (fun c => pyIn c (pyLower line)) with
    | true => simp [h]
    | false => simp [h, ih]

/-- C8 (amended): for reviewer text with no captured tags and no YAML
indicators, if some line contains a known package-manager or service-manager command
substring, the Extractor synthesizes a single-task playbook wrapping the
*stripped* form of the first such line as a shell step, and that stripped
line appears in the artifact content.  (The literal line including its
leading/trailing whitespace need not appear: see the counterexample.) -/
theorem command_sniff_fallback (raw task l : String)
    (h1 : (tagScan (pySplitLines raw) initTagState).finalCodeLines = [])
    (h2 : yamlIndicator raw = false)
    (h3 : firstSniffLine (pySplitLines raw) = some l) :
    (parse_crew_result raw task).playbook_content = some (mkShellPlaybook (pyStrip l)) ∧
    pyIn (pyStrip l) (mkShellPlaybook (pyStrip l)) = true := by
  constructor
  · unfold parse_crew_result
    simp [h1, h2, pcFalsy, cmdSniff_eq_firstSniff, h3]
  · exact pyIn_middle _ _ "\n"

/-- Witness for C8: a line containing "systemctl restart nginx" (with no
surrounding whitespace) yields the synthesized shell wrapper containing it. -/
theorem command_sniff_fallback_witness :
    (parse_crew_result "please systemctl restart nginx now" "t").playbook_content =
      some (mkShellPlaybook (pyStrip "please systemctl restart nginx now")) ∧
    pyIn (pyStrip "please systemctl restart nginx now")
      (mkShellPlaybook (pyStrip "please systemctl restart nginx now")) = true :=
  command_sniff_fallback "please systemctl restart nginx now" "t"
    "please systemctl restart nginx now" rfl rfl rfl

/-- Counterexample to C8 as stated: for the tab-indented line
`"\tsystemctl restart nginx"` (no tags, no YAML indicators, a known command
substring) the synthesized artifact wraps the *stripped* line, and the
literal line does not appear in the artifact content. -/
theorem command_sniff_strips_literal_counterexample :
    yamlIndicator c8raw = false ∧
    (tagScan (pySplitLines c8raw) initTagState).finalCodeLines = [] ∧
    firstSniffLine (pySplitLines c8raw) = some c8raw ∧
    (parse_crew_result c8raw "t").playbook_content = some c8playbook ∧
    pyIn c8raw c8playbook = false :=
  ⟨rfl, rfl, rfl, rfl, by decide⟩

/-! #### Line split/join lemmas -/

theorem splitNl_ne_nil : ∀ l : List Char, splitNl l ≠ []
  | [] => by simp [splitNl]
  | c :: rest => by
    unfold splitNl
    split
    · simp
    · cases h : splitNl rest with
      | nil => simp
      | cons a t => simp

theorem splitNl_no_newline : ∀ cs : List Char, '\n' ∉ cs → splitNl cs = [cs]
  | [], _ => rfl
  | c :: rest, h => by
    have hc : (c == '\n') = false := by
      simp only [List.mem_cons, not_or] at h
      simp only [beq_eq_false_iff_ne, ne_eq]
      exact fun hh => h.1 hh.symm
    have hrest : '\n' ∉ rest := by
      simp only [List.mem_cons, not_or] at h
      exact h.2
    unfold splitNl
    rw [if_neg (by simp [hc]), splitNl_no_newline rest hrest]

theorem splitNl_append (cs rest : List Char) (h : '\n' ∉ cs) :
    splitNl (cs ++ '\n' :: rest) = cs :: splitNl rest := by
  induction cs with
  | nil => simp [splitNl]
  | cons c cs' ih =>
    have hc : (c == '\n') = false := by
      simp only [List.mem_cons, not_or] at h
      simp only [beq_eq_false_iff_ne, ne_eq]
      exact fun hh => h.1 hh.symm
    have hcs : '\n' ∉ cs' := by
      simp only [List.mem_cons, not_or] at h
      exact h.2
    show splitNl (c :: (cs' ++ '\n' :: rest)) = (c :: cs') :: splitNl rest
    have hstep : splitNl (c :: (cs' ++ '\n' :: rest)) =
        match splitNl (cs' ++ '\n' :: rest) with
        | [] => [[c]]
        | h :: t => (c :: h) :: t := by
      conv_lhs => unfold splitNl
      rw [if_neg (by simp [hc])]
    rw [hstep, ih hcs]

theorem toList_joinLines_cons (x y : String) (xs : List String) :
    (joinLines (x :: y :: xs)).toList = x.toList ++ '\n' :: (joinLines (y :: xs)).toList := by
  show ((x ++ "\n") ++ joinLines (y :: xs)).data = x.data ++ '\n' :: (joinLines (y :: xs)).data
  rw [String.data_append, String.data_append, List.append_assoc]
  rfl

theorem pySplit_join : ∀ xs : List String, xs ≠ [] → (∀ x ∈ xs, '\n' ∉ x.toList) →
    pySplitLines (joinLines xs) = xs
  | [], hnn, _ => absurd rfl hnn
  | [x], _, hnl => by
    unfold pySplitLines
    show (splitNl x.toList).map (fun cs => String.mk cs) = [x]
    rw [splitNl_no_newline x.toList (hnl x (by simp))]
    rfl
  | x :: y :: xs, _, hnl => by
    unfold pySplitLines
    rw [toList_joinLines_cons,
      splitNl_append x.toList _ (hnl x (by simp))]
    show String.mk x.toList ::
        (splitNl (joinLines (y :: xs)).toList).map (fun cs => String.mk cs) = x :: y :: xs
    have htail : pySplitLines (joinLines (y :: xs)) = y :: xs :=
      pySplit_join (y :: xs) (by simp) (fun z hz => hnl z (by simp [hz]))
    unfold pySplitLines at htail
    rw [htail]
    rfl

theorem joinLines_cons_ne_empty (c : String) (cs : List String) (hc : c ≠ "") :
    joinLines (c :: cs) ≠ "" := by
  cases cs with
  | nil => exact hc
  | cons d ds =>
    intro hcon
    have hdata := congrArg String.toList hcon
    rw [toList_joinLines_cons] at hdata
    have hmem : ('\n' : Char) ∈ ([] : List Char) := by
      rw [show ("" : String).toList = ([] : List Char) from rfl] at hdata
      rw [← hdata]
      simp
    simp at hmem

/-! #### Tag-scan state lemmas -/

theorem headedPrefix_excl (a b : Char) (as bs l : List Char) (hab : b ≠ a)
    (h : (a :: as).isPrefixOf l = true) : (b :: bs).isPrefixOf l = false := by
  cases l with
  | nil => simp [List.isPrefixOf] at h
  | cons c r =>
    simp only [List.isPrefixOf, Bool.and_eq_true, beq_iff_eq] at h
    simp only [List.isPrefixOf, Bool.and_eq_false_iff, beq_eq_false_iff_ne, ne_eq]
    exact Or.inl (h.1 ▸ hab)

theorem startsFC_excl (s : String) (h : pyStartsWith "FINAL_CODE:" s = true) :
    pyStartsWith "STATUS:" s = false ∧ pyStartsWith "APPROACH:" s = false ∧
    pyStartsWith "RESULT:" s = false ∧ pyStartsWith "OUTPUT:" s = false := by
  unfold pyStartsWith at h ⊢
  rw [show ("FINAL_CODE:").toList = 'F' :: ("INAL_CODE:").toList from rfl] at h
  refine ⟨?_, ?_, ?_, ?_⟩
  · rw [show ("STATUS:").toList = 'S' :: ("TATUS:").toList from rfl]
    exact headedPrefix_excl 'F' 'S' _ _ _ (by decide) h
  · rw [show ("APPROACH:").toList = 'A' :: ("PPROACH:").toList from rfl]
    exact headedPrefix_excl 'F' 'A' _ _ _ (by decide) h
  · rw [show ("RESULT:").toList = 'R' :: ("ESULT:").toList from rfl]
    exact headedPrefix_excl 'F' 'R' _ _ _ (by decide) h
  · rw [show ("OUTPUT:").toList = 'O' :: ("UTPUT:").toList from rfl]
    exact headedPrefix_excl 'F' 'O' _ _ _ (by decide) h

theorem tagStep_no_fc (st : TagState) (p : String)
    (h4 : pyStartsWith "FINAL_CODE:" (pyStrip p) = false) (hfc : st.inFinalCode = false) :
    (tagStep st p).inFinalCode = false ∧ (tagStep st p).finalCodeLines = st.finalCodeLines := by
  unfold tagStep
  simp only [h4, Bool.false_eq_true, if_false, hfc, Bool.false_and]
  split_ifs <;> simp [hfc]

theorem tagScan_pre : ∀ (pre : List String) (st : TagState),
    (∀ p ∈ pre, pyStartsWith "FINAL_CODE:" (pyStrip p) = false) → st.inFinalCode = false →
    (tagScan pre st).inFinalCode = false ∧ (tagScan pre st).finalCodeLines = st.finalCodeLines := by
  intro pre
  induction pre with
  | nil => exact fun st _ hfc => ⟨hfc, rfl⟩
  | cons p rest ih =>
    intro st hpre hfc
    obtain ⟨hfc', hfl'⟩ :=
      tagStep_no_fc st p (hpre p (List.mem_cons_self _ _)) hfc
    have hrec := ih (tagStep st p) (fun q hq => hpre q (List.mem_cons_of_mem _ hq)) hfc'
    refine ⟨hrec.1, ?_⟩
    show (tagScan rest (tagStep st p)).finalCodeLines = st.finalCodeLines
    rw [hrec.2, hfl']

theorem tagStep_fc (st : TagState) (l : String)
    (hl : pyStartsWith "FINAL_CODE:" (pyStrip l) = true) :
    tagStep st l = { st with inFinalCode := true } := by
  obtain ⟨e1, e2, e3, e4⟩ := startsFC_excl (pyStrip l) hl
  unfold tagStep
  simp only [e1, e2, e3, e4, hl, Bool.or_self, Bool.false_eq_true, if_false, if_true]

theorem capturedLines_cons (p : String) (rest : List String) :
    capturedLines (p :: rest) =
      (if pyStrip p != "" && !isTagLine (pyStrip p) then [pyStrip p] else []) ++
        capturedLines rest := by
  unfold capturedLines
  rw [List.filterMap_cons]
  dsimp only
  cases hcond : (pyStrip p != "" && !isTagLine (pyStrip p)) with
  | true => simp [hcond]
  | false => simp [hcond]

theorem tagStep_capture_props (st : TagState) (p : String) (hfc : st.inFinalCode = true) :
    (tagStep st p).inFinalCode = true ∧
    (tagStep st p).finalCodeLines = st.finalCodeLines ++
      (if pyStrip p != "" && !isTagLine (pyStrip p) then [pyStrip p] else []) := by
  unfold tagStep
  by_cases h1 : pyStartsWith "STATUS:" (pyStrip p) = true
  · have ht : isTagLine (pyStrip p) = true := by simp [isTagLine, h1]
    simp [h1, ht, hfc]
  · rw [Bool.not_eq_true] at h1
    by_cases h2 : pyStartsWith "APPROACH:" (pyStrip p) = true
    · have ht : isTagLine (pyStrip p) = true := by simp [isTagLine, h2]
      simp [h1, h2, ht, hfc]
    · rw [Bool.not_eq_true] at h2
      by_cases h3 : (pyStartsWith "RESULT:" (pyStrip p) || pyStartsWith "OUTPUT:" (pyStrip p)) = true
      · have ht : isTagLine (pyStrip p) = true := by
          rcases Bool.or_eq_true_iff.mp h3 with h | h <;> simp [isTagLine, h]
        simp [h1, h2, h3, ht, hfc]
      · rw [Bool.not_eq_true, Bool.or_eq_false_iff] at h3
        by_cases h4 : pyStartsWith "FINAL_CODE:" (pyStrip p) = true
        · have ht : isTagLine (pyStrip p) = true := by simp [isTagLine, h4]
          simp [h1, h2, h3.1, h3.2, h4, ht, hfc]
        · rw [Bool.not_eq_true] at h4
          have ht : isTagLine (pyStrip p) = false := by
            simp [isTagLine, h1, h2, h3.1, h3.2, h4]
          by_cases h5 : (pyStrip p != "") = true
          · simp [h1, h2, h3.1, h3.2, h4, h5, ht, hfc]
          · rw [Bool.not_eq_true] at h5
            simp [h1, h2, h3.1, h3.2, h4, h5, ht, hfc]

theorem tagScan_capture : ∀ (post : List String) (st : TagState), st.inFinalCode = true →
    (tagScan post st).finalCodeLines = st.finalCodeLines ++ capturedLines post := by
  intro post
  induction post with
  | nil => exact fun st _ => by simp [tagScan, capturedLines]
  | cons p rest ih =>
    intro st hfc
    obtain ⟨hfc', hfl'⟩ := tagStep_capture_props st p hfc
    show (tagScan rest (tagStep st p)).finalCodeLines = _
    rw [ih (tagStep st p) hfc', hfl', capturedLines_cons, List.append_assoc]

theorem capturedLines_all_ne_empty (post : List String) :
    ∀ s ∈ capturedLines post, s ≠ "" := by
  intro s hs
  unfold capturedLines at hs
  rcases List.mem_filterMap.mp hs with ⟨l, _, hf⟩
  dsimp only at hf
  cases hcond : (pyStrip l != "" && !isTagLine (pyStrip l)) with
  | true =>
    rw [hcond] at hf
    simp only [if_true] at hf
    simp only [Option.some.injEq] at hf
    rw [← hf]
    have hb := (Bool.and_eq_true _ _).mp hcond
    simpa [bne_iff_ne] using hb.1
  | false =>
    rw [hcond] at hf
    simp at hf

/-- C4 (amended): for reviewer text whose first `FINAL_CODE:` line is
followed by further lines, the artifact content equals the newline-join of
the *stripped* forms of every subsequent non-blank line whose stripped form
is not itself a recognized tag line, with capture closing only at end of
text.  (The verbatim lines, with their indentation, are not preserved, and
tag lines are consumed by earlier scanner branches: see the
counterexample.) -/
theorem final_code_capture (pre post : List String) (l task : String)
    (hl : pyStartsWith "FINAL_CODE:" (pyStrip l) = true)
    (hpre : ∀ p ∈ pre, pyStartsWith "FINAL_CODE:" (pyStrip p) = false)
    (hnl : ∀ x ∈ pre ++ l :: post, '\n' ∉ x.toList)
    (hne : capturedLines post ≠ []) :
    (parse_crew_result (joinLines (pre ++ l :: post)) task).playbook_content =
      some (joinLines (capturedLines post)) := by
  have hlines : pySplitLines (joinLines (pre ++ l :: post)) = pre ++ l :: post :=
    pySplit_join _ (by simp) hnl
  have hscan : (tagScan (pre ++ l :: post) initTagState).finalCodeLines = capturedLines post := by
    unfold tagScan
    rw [List.foldl_append, List.foldl_cons]
    obtain ⟨hfc0, hfl0⟩ := tagScan_pre pre initTagState hpre rfl
    unfold tagScan at hfc0 hfl0
    rw [tagStep_fc _ l hl]
    have hcapt := tagScan_capture post
      { List.foldl tagStep initTagState pre with inFinalCode := true } rfl
    unfold tagScan at hcapt
    rw [hcapt]
    show (List.foldl tagStep initTagState pre).finalCodeLines ++ _ = _
    rw [hfl0]
    show ([] : List String) ++ _ = _
    rw [List.nil_append]
  obtain ⟨c, cs, hcap⟩ : ∃ c cs, capturedLines post = c :: cs := by
    cases hcapl : capturedLines post with
    | nil => exact absurd hcapl hne
    | cons c cs => exact ⟨c, cs, rfl⟩
  have hcne : c ≠ "" := capturedLines_all_ne_empty post c (by rw [hcap]; simp)
  have hjoin_ne : joinLines (capturedLines post) ≠ "" := by
    rw [hcap]
    exact joinLines_cons_ne_empty c cs hcne
  have hne' : (capturedLines post != []) = true := bne_iff_ne.mpr hne
  have hjb : (joinLines (capturedLines post) == "") = false := beq_eq_false_iff_ne.mpr hjoin_ne
  unfold parse_crew_result
  simp only [hlines, hscan, hne', if_true, pcFalsy, hjb, Bool.false_eq_true, if_false]

/-- Witness for C4: a `STATUS:` line, a `FINAL_CODE:` marker, then three
further lines (one blank) yield the stripped non-blank lines joined by
newlines. -/
theorem final_code_capture_witness :
    (parse_crew_result
        (joinLines (["STATUS: APPROVED"] ++ "FINAL_CODE:" :: ["- hosts: all", "", "tasks: []"]))
        "t").playbook_content =
      some (joinLines (capturedLines ["- hosts: all", "", "tasks: []"])) :=
  final_code_capture ["STATUS: APPROVED"] ["- hosts: all", "", "tasks: []"] "FINAL_CODE:" "t"
    (by decide) (by decide) (by decide) (by decide)

/-- Counterexample to C4 as stated: with an indented block after
`FINAL_CODE:`, the artifact content is the *stripped* lines, not the
verbatim concatenation of the subsequent non-blank lines
(`verbatim_final_code`, the claim's reading). -/
theorem final_code_not_verbatim_counterexample :
    (parse_crew_result c4raw "t").playbook_content = some "- name: install\napt: name=nginx" ∧
    verbatim_final_code c4raw = some "  - name: install\n    apt: name=nginx" ∧
    (parse_crew_result c4raw "t").playbook_content ≠ verbatim_final_code c4raw := by
  refine ⟨rfl, rfl, ?_⟩
  decide

end Infrabot
